import Mathlib

/-!
Verification model of the sumo-redrive charge-request pipeline
(`src/sumoredrive/charge_request.py` and `src/sumoredrive/run_concurrent.py`).

The Python code is embedded shallowly:
* `jsonLoads` models the strict JSON reader `json.loads` on the fragment the
  program exercises (integer numerals, strings with escapes, arrays, objects,
  literals); floats, `NaN`/`Infinity` and non-ASCII digit classes are outside
  the model, and `\u` escapes decode single code points (no surrogate pairs).
* The per-order runner `run_one_order`, its poll loop and message scan are
  translated statement by statement, with backend responses supplied by an
  explicit environment and observable effects recorded as an event trace.
* The concurrent orchestrator of `run_concurrent.main` is modelled by
  `processCompletions` over an arbitrary completion order.
-/

/-- Json values as produced by the Python `json` module.  The model restricts
numbers to integers; the inputs handled by this program never use floats. -/
inductive Json where
  | null
  | bool (b : Bool)
  | num (n : Int)
  | str (s : String)
  | arr (elems : List Json)
  | obj (members : List (String × Json))

/-- Whitespace accepted between JSON tokens by `json.loads`. -/
def isJsonWs (c : Char) : Bool :=
  c = ' ' || c = '\t' || c = '\n' || c = '\r'

/-- Drop leading JSON whitespace. -/
def skipWs : List Char → List Char
  | [] => []
  | c :: rest => if isJsonWs c then skipWs rest else c :: rest

/-- Value of a hexadecimal digit. -/
def hexVal (c : Char) : Option Nat :=
  if '0' ≤ c ∧ c ≤ '9' then some (c.toNat - 48)
  else if 'a' ≤ c ∧ c ≤ 'f' then some (c.toNat - 87)
  else if 'A' ≤ c ∧ c ≤ 'F' then some (c.toNat - 55)
  else none

/-- Body of a JSON string after the opening quote: returns the decoded
content and the remainder after the closing quote.  Mirrors the strict
`json.loads` scanner: the eight standard escapes plus `\uXXXX`, and raw
control characters are rejected. -/
def parseStringBody : Nat → List Char → Option (List Char × List Char)
  | 0, _ => none
  | _, [] => none
  | fuel + 1, c :: rest =>
    if c = '"' then some ([], rest)
    else if c = '\\' then
      match rest with
      | [] => none
      | e :: rest2 =>
        let esc : Option (Char × List Char) :=
          if e = '"' then some ('"', rest2)
          else if e = '\\' then some ('\\', rest2)
          else if e = '/' then some ('/', rest2)
          else if e = 'b' then some ('\x08', rest2)
          else if e = 'f' then some ('\x0c', rest2)
          else if e = 'n' then some ('\n', rest2)
          else if e = 'r' then some ('\r', rest2)
          else if e = 't' then some ('\t', rest2)
          else if e = 'u' then
            match rest2 with
            | h1 :: h2 :: h3 :: h4 :: rest3 =>
              match hexVal h1, hexVal h2, hexVal h3, hexVal h4 with
              | some a, some b, some c2, some d =>
                let code := ((a * 16 + b) * 16 + c2) * 16 + d
                if 0xd800 ≤ code ∧ code < 0xe000 then none
                else some (Char.ofNat code, rest3)
              | _, _, _, _ => none
            | _ => none
          else none
        match esc with
        | none => none
        | some (ch, r) =>
          match parseStringBody fuel r with
          | some (content, rem) => some (ch :: content, rem)
          | none => none
    else if c.toNat < 32 then none
    else
      match parseStringBody fuel rest with
      | some (content, rem) => some (c :: content, rem)
      | none => none

/-- Numeric value of a list of decimal digits. -/
def digitsToNat (ds : List Char) : Nat :=
  ds.foldl (fun acc c => acc * 10 + (c.toNat - 48)) 0

/-- JSON integer numeral: optional minus, no leading zeros, and not followed
by a fraction or exponent (floats are outside the model, so a float numeral
makes the model reader fail where `json.loads` would return a float). -/
def parseNumber (cs : List Char) : Option (Int × List Char) :=
  let p : Bool × List Char :=
    match cs with
    | '-' :: r => (true, r)
    | _ => (false, cs)
  let ds := p.2.takeWhile Char.isDigit
  let rest := p.2.dropWhile Char.isDigit
  if ds.isEmpty then none
  else if ds.length > 1 ∧ ds.head? = some '0' then none
  else
    let blocked : Bool :=
      match rest with
      | k :: _ => k = '.' || k = 'e' || k = 'E'
      | [] => false
    if blocked then none
    else
      let v : Int := Int.ofNat (digitsToNat ds)
      some ((if p.1 then -v else v), rest)

mutual

/-- One JSON value, fuel-indexed recursive descent. -/
def parseValue : Nat → List Char → Option (Json × List Char)
  | 0, _ => none
  | fuel + 1, cs =>
    match skipWs cs with
    | 'n' :: 'u' :: 'l' :: 'l' :: rest => some (Json.null, rest)
    | 't' :: 'r' :: 'u' :: 'e' :: rest => some (Json.bool true, rest)
    | 'f' :: 'a' :: 'l' :: 's' :: 'e' :: rest => some (Json.bool false, rest)
    | '"' :: rest =>
      match parseStringBody (rest.length + 1) rest with
      | some (content, rem) => some (Json.str (String.mk content), rem)
      | none => none
    | '[' :: rest =>
      match skipWs rest with
      | ']' :: rem => some (Json.arr [], rem)
      | cs2 =>
        match parseElems fuel cs2 with
        | some (vs, rem) => some (Json.arr vs, rem)
        | none => none
    | '\x7b' :: rest =>
      match skipWs rest with
      | '\x7d' :: rem => some (Json.obj [], rem)
      | cs2 =>
        match parseMembers fuel cs2 with
        | some (ms, rem) => some (Json.obj ms, rem)
        | none => none
    | cs2 =>
      match parseNumber cs2 with
      | some (n, rem) => some (Json.num n, rem)
      | none => none

/-- Comma-separated array elements up to the closing bracket. -/
def parseElems : Nat → List Char → Option (List Json × List Char)
  | 0, _ => none
  | fuel + 1, cs =>
    match parseValue fuel cs with
    | none => none
    | some (v, rest) =>
      match skipWs rest with
      | ',' :: rest2 =>
        match parseElems fuel rest2 with
        | some (vs, rem) => some (v :: vs, rem)
        | none => none
      | ']' :: rem => some ([v], rem)
      | _ => none

/-- Comma-separated object members up to the closing brace. -/
def parseMembers : Nat → List Char → Option (List (String × Json) × List Char)
  | 0, _ => none
  | fuel + 1, cs =>
    match skipWs cs with
    | '"' :: rest =>
      match parseStringBody (rest.length + 1) rest with
      | none => none
      | some (key, rest2) =>
        match skipWs rest2 with
        | ':' :: rest3 =>
          match parseValue fuel rest3 with
          | none => none
          | some (v, rest4) =>
            match skipWs rest4 with
            | ',' :: rest5 =>
              match parseMembers fuel rest5 with
              | some (ms, rem) => some ((String.mk key, v) :: ms, rem)
              | none => none
            | '\x7d' :: rem => some ([(String.mk key, v)], rem)
            | _ => none
        | _ => none
    | _ => none

end

/-- Model of `json.loads`: parse one value and require only whitespace after
it.  The fuel bound exceeds the number of recursive-descent steps any input
of this length can take. -/
def jsonLoads (s : String) : Option Json :=
  let cs := s.toList
  match parseValue (4 * cs.length + 16) cs with
  | some (v, rest) => if (skipWs rest).isEmpty then some v else none
  | none => none

/-- Python `str.replace`: leftmost, non-overlapping, nonempty pattern.  The
fuel equals the input length; each step consumes at least one character. -/
def replaceAux (pat repl : List Char) : Nat → List Char → List Char
  | 0, s => s
  | _, [] => []
  | fuel + 1, c :: rest =>
    if pat.isPrefixOf (c :: rest) then
      repl ++ replaceAux pat repl fuel ((c :: rest).drop pat.length)
    else
      c :: replaceAux pat repl fuel rest

/-- Python `str.replace` on strings (identity for the empty pattern, which
the source never uses). -/
def pyReplace (s pat repl : String) : String :=
  match pat.toList with
  | [] => s
  | p :: ps => String.mk (replaceAux (p :: ps) repl.toList s.toList.length s.toList)

/-- Fallback unescape from `charge_request.py` line 176:
`raw_json.replace("\\\"", "\"").replace("\\\\", "\\")`. -/
def unescapeRaw (raw : String) : String :=
  pyReplace (pyReplace raw ("\\\"") ("\"")) ("\\\\") ("\\")

/-- Decode of one message's `json` field, lines 169–180 of
`charge_request.py`: parse; if a string results, parse again; on a parse
error (outer or inner), unescape the original raw text and parse once;
`none` means both attempts failed (the message is logged and skipped). -/
def decodeMessage (raw : String) : Option Json :=
  match jsonLoads raw with
  | some (Json.str s) =>
    match jsonLoads s with
    | some v => some v
    | none => jsonLoads (unescapeRaw raw)
  | some v => some v
  | none => jsonLoads (unescapeRaw raw)

example : jsonLoads ("null") = some Json.null := by rfl
example : jsonLoads ("\x7b\"a\":1\x7d") = some (Json.obj [("a", Json.num 1)]) := by rfl
example : jsonLoads ("\"\x7b\\\"a\\\":1\x7d\"") = some (Json.str ("\x7b\"a\":1\x7d")) := by rfl
example : decodeMessage ("\"\x7b\\\"a\\\":1\x7d\"") = some (Json.obj [("a", Json.num 1)]) := by rfl
example : unescapeRaw ("\x7b\\\"a\\\":1\x7d") = "\x7b\"a\":1\x7d" := by rfl

/-- Observable effects of one order's run: the HTTP requests it issues and
the SQS delivery attempt. -/
inductive Event where
  | submitReq
  | pollReq
  | pageReq (offset : Nat)
  | sqsSend
  | deleteReq (jobId : String)
deriving DecidableEq

/-- Backend response to the job-creation POST.  `transportError` models a
non-HTTP failure (`urllib.error.URLError`), which the source does not catch
and which therefore propagates as an exception. -/
inductive SubmitResp where
  | transportError
  | httpError (code : Nat)
  | ok (status : Nat) (jobId : String)

/-- Backend response to one status poll. -/
inductive PollResp where
  | transportError
  | httpError (code : Nat)
  | ok (status : Nat) (state : String) (messageCount : Nat)

/-- One result message: the value of `msg["map"]["json"]` when present. -/
structure Message where
  json : Option String

/-- Backend response to one message-page fetch. -/
inductive PageResp where
  | transportError
  | httpError (code : Nat)
  | ok (status : Nat) (messages : List Message)

/-- Outcome of the SQS send attempt in `_send_to_sqs`: delivered, a failure
caught by the `except Exception` handler, or the `SystemExit` that
`_send_to_sqs` raises for a nonexistent queue (which no handler catches). -/
inductive SqsOutcome where
  | delivered
  | failed
  | exits

/-- Environment of one `_run_one_order` call: the backend's responses, the
SQS configuration, and whether the final best-effort DELETE fails. -/
structure RunEnv where
  submit : SubmitResp
  polls : List PollResp
  pages : Nat → PageResp
  sqsUrl : Bool
  sqsOutcome : SqsOutcome
  deleteFails : Bool

/-- Result of the polling `while True` loop, lines 120–144. -/
inductive PollResult where
  | outOfResponses (events : List Event)
  | failedReturn (events : List Event)
  | transportRaise (events : List Event)
  | proceed (messageCount : Nat) (events : List Event)

/-- Poll loop of `_run_one_order`: sleep, fetch status, then in order check
the done-gathering state, a positive message count, and cancellation;
otherwise poll again.  `outOfResponses` marks an exhausted response list
(the Python loop would keep polling forever). -/
def pollLoop : List PollResp → List Event → PollResult
  | [], evs => .outOfResponses evs
  | r :: rest, evs =>
    let evs := evs ++ [Event.pollReq]
    match r with
    | .transportError => .transportRaise evs
    | .httpError _ => .failedReturn evs
    | .ok status state mc =>
      if status ≠ 200 then .failedReturn evs
      else if state = "DONE GATHERING RESULTS" then .proceed mc evs
      else if mc ≥ 1 then .proceed mc evs
      else if state = "CANCELLED" then .failedReturn evs
      else pollLoop rest evs

/-- Mutable state of the message-extraction loops: the `printed` and
`sent_to_sqs` counters, the collected results and the event trace. -/
structure ScanState where
  printed : Nat
  sent : Nat
  results : List Json
  events : List Event

/-- Result of the `for msg in messages` loop over one page: ran off the end,
broke after the first accepted result, or propagated `SystemExit`. -/
inductive ScanRes where
  | ranOff (st : ScanState)
  | broke (st : ScanState)
  | exits (st : ScanState)

/-- Per-message acceptance test of lines 164–181: `none` when the `json`
field is missing or empty (`if not raw_json: continue`), when both decode
attempts fail (logged and skipped), or when the decode yields null (`if obj
is not None` is false); otherwise the decoded value. -/
def msgDecode (m : Message) : Option Json :=
  match m.json with
  | none => none
  | some raw =>
    if raw = "" then none
    else
      match decodeMessage raw with
      | none => none
      | some Json.null => none
      | some v => some v

/-- Message loop of `_run_one_order`, lines 164–199: skip messages that
`msgDecode` rejects, and on the first accepted message record it, attempt
the optional SQS delivery, and break. -/
def scanMessages (sqsUrl : Bool) (sqsOutcome : SqsOutcome) : ScanState → List Message → ScanRes
  | st, [] => .ranOff st
  | st, m :: rest =>
    match msgDecode m with
    | none => scanMessages sqsUrl sqsOutcome st rest
    | some v =>
      let st1 : ScanState :=
        { st with printed := st.printed + 1, results := st.results ++ [v] }
      if sqsUrl then
        match sqsOutcome with
        | .delivered =>
          .broke { st1 with sent := st1.sent + 1, events := st1.events ++ [Event.sqsSend] }
        | .failed => .broke { st1 with events := st1.events ++ [Event.sqsSend] }
        | .exits => .exits { st1 with events := st1.events ++ [Event.sqsSend] }
      else .broke st1

/-- Result of the paging `while offset < message_count` loop. -/
inductive PageLoopRes where
  | finish (st : ScanState)
  | transportRaise (st : ScanState)
  | exits (st : ScanState)

/-- Page loop of `_run_one_order`, lines 149–202: fetch pages while
`offset < message_count`; an HTTP error, a non-200 status or an empty page
breaks; a page whose scan broke (first result accepted) breaks both loops;
otherwise advance the offset by the page length.  The fuel is spent once per
fetch; `run_one_order` passes `messageCount + 1`, which the strictly
increasing offset can never exhaust. -/
def pageLoop (pages : Nat → PageResp) (sqsUrl : Bool) (sqsOutcome : SqsOutcome)
    (mc : Nat) : Nat → Nat → Nat → ScanState → PageLoopRes
  | 0, _, _, st => .finish st
  | fuel + 1, fetchIdx, offset, st =>
    if offset < mc then
      let st := { st with events := st.events ++ [Event.pageReq offset] }
      match pages fetchIdx with
      | .transportError => .transportRaise st
      | .httpError _ => .finish st
      | .ok status msgs =>
        if status ≠ 200 then .finish st
        else if msgs.isEmpty then .finish st
        else
          match scanMessages sqsUrl sqsOutcome st msgs with
          | .exits st2 => .exits st2
          | .broke st2 => .finish st2
          | .ranOff st2 =>
            if st2.printed > 0 then .finish st2
            else pageLoop pages sqsUrl sqsOutcome mc fuel (fetchIdx + 1) (offset + msgs.length) st2
    else .finish st

/-- Terminal outcome of one `_run_one_order` call: counter pair with results
and trace, a propagated exception (`systemExit` distinguishes the
`SystemExit` from SQS misconfiguration from ordinary transport exceptions),
or an exhausted poll-response list. -/
inductive RunOutcome where
  | outOfResponses (events : List Event)
  | raised (systemExit : Bool) (events : List Event)
  | done (printed sent : Nat) (results : List Json) (events : List Event)

/-- Model of `_run_one_order`, lines 94–210: submit the search job, poll it,
page through messages, and finally issue the best-effort DELETE.  The DELETE
is reached only by falling out of the page loop; the early returns in the
poll loop skip it, matching the source. -/
def run_one_order (env : RunEnv) : RunOutcome :=
  let evs0 : List Event := [Event.submitReq]
  match env.submit with
  | .transportError => .raised false evs0
  | .httpError _ => .done 0 0 [] evs0
  | .ok status jobId =>
    if status ≠ 202 then .done 0 0 [] evs0
    else
      match pollLoop env.polls evs0 with
      | .outOfResponses evs => .outOfResponses evs
      | .transportRaise evs => .raised false evs
      | .failedReturn evs => .done 0 0 [] evs
      | .proceed mc evs =>
        match pageLoop env.pages env.sqsUrl env.sqsOutcome mc (mc + 1) 0 0 ⟨0, 0, [], evs⟩ with
        | .transportRaise st => .raised false st.events
        | .exits st => .raised true st.events
        | .finish st =>
          .done st.printed st.sent st.results (st.events ++ [Event.deleteReq jobId])

/-- Gregorian leap-year test. -/
def isLeap (y : Nat) : Bool :=
  (y % 4 = 0 && y % 100 ≠ 0) || y % 400 = 0

/-- Days in a month of the proleptic Gregorian calendar. -/
def daysInMonth (y m : Nat) : Nat :=
  if m = 2 then (if isLeap y then 29 else 28)
  else if m = 4 ∨ m = 6 ∨ m = 9 ∨ m = 11 then 30
  else 31

/-- Two-digit zero-padded numeral. -/
def pad2 (n : Nat) : String :=
  if n < 10 then ("0" ++ toString n) else toString n

/-- Four-digit zero-padded numeral. -/
def pad4 (n : Nat) : String :=
  if n < 10 then ("000" ++ toString n)
  else if n < 100 then ("00" ++ toString n)
  else if n < 1000 then ("0" ++ toString n)
  else toString n

/-- Strict `datetime.strptime(s, "%Y-%m-%d")` on a ten-character input: at
this exact length the lenient field widths of `strptime` force the
`dddd-dd-dd` shape, so the strict reading is equivalent.  Validates the
month, the day against the month length, and `datetime`'s year range. -/
def parseDate10 (s : String) : Option (Nat × Nat × Nat) :=
  match s.toList with
  | [y1, y2, y3, y4, s1, m1, m2, s2, d1, d2] =>
    if y1.isDigit ∧ y2.isDigit ∧ y3.isDigit ∧ y4.isDigit ∧ s1 = '-' ∧
        m1.isDigit ∧ m2.isDigit ∧ s2 = '-' ∧ d1.isDigit ∧ d2.isDigit then
      let y := digitsToNat [y1, y2, y3, y4]
      let m := digitsToNat [m1, m2]
      let d := digitsToNat [d1, d2]
      if 1 ≤ y ∧ y ≤ 9999 ∧ 1 ≤ m ∧ m ≤ 12 ∧ 1 ≤ d ∧ d ≤ daysInMonth y m then
        some (y, m, d)
      else none
    else none
  | _ => none

/-- Calendar successor of a date. -/
def addOneDay : Nat × Nat × Nat → Nat × Nat × Nat
  | (y, m, d) =>
    if d < daysInMonth y m then (y, m, d + 1)
    else if m < 12 then (y, m + 1, 1)
    else (y + 1, 1, 1)

/-- ISO `YYYY-MM-DD` rendering of a date (`date.isoformat`). -/
def isoDate : Nat × Nat × Nat → String
  | (y, m, d) => pad4 y ++ "-" ++ pad2 m ++ "-" ++ pad2 d

/-- Model of `_next_day_from_time`, lines 238–249: despite its docstring and
its second parameter, the source never inspects `to_time`; it returns the
next-day window whenever the first ten characters of `from_time` parse as a
date (guarded by a four-digit prefix check). -/
def next_day_from_time (from_time to_time : String) : Option (String × String) :=
  if from_time.length < 10 then none
  else if ¬ (from_time.toList.take 4).all Char.isDigit then none
  else
    match parseDate10 (String.mk (from_time.toList.take 10)) with
    | none => none
    | some d =>
      let nd := addOneDay d
      some (isoDate nd ++ "T00:00:00", isoDate nd ++ "T23:59:59")

/-- One order's run with the conditional next-day retry, the shape shared by
`charge_request.main` (lines 319–331 and 386–397) and
`_run_one_order_task` in `run_concurrent.py`: when the first run returns
zero results and `_next_day_from_time` yields a window, run exactly once
more, the second result replacing the first.  `env2` supplies the backend's
responses to the retry submission. -/
def runOrderWithRetry (env1 env2 : RunEnv) (from_time to_time : String) : RunOutcome :=
  match run_one_order env1 with
  | .done printed sent results evs =>
    if printed = 0 then
      match next_day_from_time from_time to_time with
      | some _ =>
        match run_one_order env2 with
        | .done p2 s2 r2 evs2 => .done p2 s2 r2 (evs ++ evs2)
        | .raised b evs2 => .raised b (evs ++ evs2)
        | .outOfResponses evs2 => .outOfResponses (evs ++ evs2)
      | none => .done printed sent results evs
    else .done printed sent results evs
  | other => other

/-- Python `str.strip` restricted to ASCII whitespace. -/
def pyStrip (s : String) : String :=
  let ws : Char → Bool := fun c =>
    c = ' ' || c = '\t' || c = '\n' || c = '\r' || c = '\x0b' || c = '\x0c'
  String.mk ((s.toList.dropWhile ws).reverse.dropWhile ws |>.reverse)

/-- Python `str.lower` restricted to ASCII letters. -/
def pyLower (s : String) : String :=
  String.mk (s.toList.map Char.toLower)

/-- Match of the regex `^-(\d+)([dhms])$` from `_resolve_relative_time`
(ASCII digits; the source's `\d` would also accept other Unicode digit
classes, which the model omits): the amount and the unit letter. -/
def matchRel (s : String) : Option (Nat × Char) :=
  match s.toList with
  | '-' :: rest =>
    let ds := rest.takeWhile Char.isDigit
    let tail := rest.dropWhile Char.isDigit
    match ds, tail with
    | [], _ => none
    | _, [u] =>
      if u = 'd' ∨ u = 'h' ∨ u = 'm' ∨ u = 's' then some (digitsToNat ds, u)
      else none
    | _, _ => none
  | _ => none

/-- Civil date of a day count since 1970-01-01 (Gregorian). -/
def civilFromDays (z : Nat) : Nat × Nat × Nat :=
  let z := z + 719468
  let era := z / 146097
  let doe := z % 146097
  let yoe := (doe - doe / 1460 + doe / 36524 - doe / 146096) / 365
  let y := yoe + era * 400
  let doy := doe - (365 * yoe + yoe / 4 - yoe / 100)
  let mp := (5 * doy + 2) / 153
  let d := doy - (153 * mp + 2) / 5 + 1
  let m := if mp < 10 then mp + 3 else mp - 9
  (if m ≤ 2 then y + 1 else y, m, d)

/-- `strftime("%Y-%m-%dT%H:%M:%S")` of a UTC instant given as seconds since
the epoch. -/
def fmtEpoch (sec : Nat) : String :=
  let days := sec / 86400
  let rem := sec % 86400
  isoDate (civilFromDays days) ++ "T" ++ pad2 (rem / 3600) ++ ":" ++
    pad2 (rem % 3600 / 60) ++ ":" ++ pad2 (rem % 60)

/-- Seconds of the `timedelta` chosen for a relative unit. -/
def unitSeconds (u : Char) : Nat :=
  if u = 'd' then 86400
  else if u = 'h' then 3600
  else if u = 'm' then 60
  else 1

/-- Model of `_resolve_relative_time`, lines 213–235.  `now` is the current
UTC clock in epoch seconds (taken once per invocation); a falsy `to_time` is
passed as the empty string.  Returns `(from_iso, to_iso, resolved_tz)`.
Subtraction is on `Nat`; instants before the epoch are outside the model. -/
def resolve_relative_time (now : Nat) (from_time to_time : String) :
    String × String × Option String :=
  let to_str := pyLower (pyStrip (if to_time = "" then "now" else to_time))
  let to_iso := if to_str = "now" then fmtEpoch now else to_time
  match matchRel (pyLower (pyStrip from_time)) with
  | some (amount, unit) =>
    (fmtEpoch (now - amount * unitSeconds unit), to_iso, some ("UTC"))
  | none => (from_time, to_iso, none)

/-- Window selection of the single-order branch of `charge_request.main`
without `--day`, lines 357–362: resolve the relative times, then override
the caller's timezone only when `_resolve_relative_time` returned one. -/
def singleModeWindow (now : Nat) (args_from args_to args_tz : String) :
    String × String × String :=
  let to_time := if args_to = "" then "now" else args_to
  let r := resolve_relative_time now args_from to_time
  (r.1, r.2.1, r.2.2.getD args_tz)

example : next_day_from_time ("2024-01-01T00:00:00") ("2024-01-01T23:59:59") =
    some ("2024-01-02T00:00:00", "2024-01-02T23:59:59") := by rfl
example : next_day_from_time ("2024-01-01T00:00:00") ("2024-03-05T12:00:00") =
    some ("2024-01-02T00:00:00", "2024-01-02T23:59:59") := by rfl
example : next_day_from_time ("-7d") ("now") = none := by rfl
example : next_day_from_time ("2024-12-31T00:00:00") ("x") =
    some ("2025-01-01T00:00:00", "2025-01-01T23:59:59") := by rfl
example : fmtEpoch 0 = "1970-01-01T00:00:00" := by rfl
example : fmtEpoch 1704067199 = "2023-12-31T23:59:59" := by rfl
example : matchRel ("-7d") = some (7, 'd') := by rfl
example : matchRel ("2024-01-01T00:00:00") = none := by rfl

/-- Entry recorded in `results_by_index` for one task. -/
structure TaskRes where
  printed : Nat
  sent : Nat
  results : List Json

/-- Value the orchestrator observes from one completed future:
`fut.result()` returned, or it re-raised the exception from the worker
(`systemExit` marks a `SystemExit`, which `except Exception` cannot catch). -/
inductive WorkerOutcome where
  | done (r : TaskRes)
  | raised (systemExit : Bool)

/-- Completed-future view of a worker's run (`_run_one_order_task`): `none`
when the run never terminates (exhausted poll responses). -/
def futureResult : RunOutcome → Option WorkerOutcome
  | .done p s res _ => some (.done ⟨p, s, res⟩)
  | .raised sys _ => some (.raised sys)
  | .outOfResponses _ => none

/-- Store a task's entry under its input index. -/
def updateMap (m : Nat → Option TaskRes) (i : Nat) (r : TaskRes) :
    Nat → Option TaskRes :=
  fun j => if j = i then some r else m j

/-- Completion loop of `run_concurrent.main`, lines 112–124: walk the
futures in completion order; a returned result is recorded under the task's
input index, an `Exception` is caught and recorded as `(order_id, 0, 0, [])`,
and a `SystemExit` propagates and aborts the batch (`none`). -/
def processCompletions (outcome : Nat → WorkerOutcome) :
    List Nat → (Nat → Option TaskRes) → Option (Nat → Option TaskRes)
  | [], m => some m
  | i :: rest, m =>
    match outcome i with
    | .done r => processCompletions outcome rest (updateMap m i r)
    | .raised false => processCompletions outcome rest (updateMap m i ⟨0, 0, []⟩)
    | .raised true => none

/-- Results recorded for index `i` (empty when the index is absent; the
Python `results_by_index[i]` would raise, but `as_completed` delivers every
index exactly once, which the ordering theorems assume explicitly). -/
def resultsAt (m : Nat → Option TaskRes) (i : Nat) : List Json :=
  match m i with
  | some r => r.results
  | none => []

/-- Printed count recorded for index `i`. -/
def printedAt (m : Nat → Option TaskRes) (i : Nat) : Nat :=
  match m i with
  | some r => r.printed
  | none => 0

/-- Sink-delivery count recorded for index `i`. -/
def sentAt (m : Nat → Option TaskRes) (i : Nat) : Nat :=
  match m i with
  | some r => r.sent
  | none => 0

/-- Final emission loop of `run_concurrent.main`, lines 130–137: the JSON
payloads printed to stdout, walking the indices in input order. -/
def emitted (n : Nat) (m : Nat → Option TaskRes) : List Json :=
  (List.range n).flatMap (resultsAt m)

/-- Aggregate `total_printed` of the final loop. -/
def totalPrinted (n : Nat) (m : Nat → Option TaskRes) : Nat :=
  ((List.range n).map (printedAt m)).sum

/-- Aggregate `total_sent` of the final loop. -/
def totalSent (n : Nat) (m : Nat → Option TaskRes) : Nat :=
  ((List.range n).map (sentAt m)).sum

/-- Exit code and total extracted count of `run_concurrent.main`: the three
input checks, then the completion loop (a propagated `SystemExit` exits with
code 1), then `sys.exit(1)` when nothing was printed and a normal return
(exit 0) otherwise. -/
def runConcurrentMain (credsOk isFile rowsNonempty : Bool) (n : Nat)
    (outcome : Nat → WorkerOutcome) (order : List Nat) : Nat × Nat :=
  if ¬credsOk then (1, 0)
  else if ¬isFile then (1, 0)
  else if ¬rowsNonempty then (1, 0)
  else
    match processCompletions outcome order (fun _ => none) with
    | none => (1, 0)
    | some m =>
      let total := totalPrinted n m
      ((if total = 0 then 1 else 0), total)

/-- One CSV row's task in the sequential batch of `charge_request.main`:
the environments of the primary and the retry run and the row's window. -/
structure RowSpec where
  env1 : RunEnv
  env2 : RunEnv
  from_time : String
  to_time : String

/-- Terminal state of the sequential CSV batch. -/
inductive BatchRes where
  | completes (totalPrinted totalSent : Nat)
  | raises (systemExit : Bool) (totalPrinted totalSent : Nat)
  | hangs

/-- Sequential batch loop of `charge_request.main`, lines 313–335: run each
row with the next-day retry and accumulate the totals; an exception
escaping a run aborts the process (there is no handler in this mode). -/
def runBatchSeq : List RowSpec → Nat → Nat → BatchRes
  | [], tp, ts => .completes tp ts
  | row :: rest, tp, ts =>
    match runOrderWithRetry row.env1 row.env2 row.from_time row.to_time with
    | .done p s _ _ => runBatchSeq rest (tp + p) (ts + s)
    | .raised b _ => .raises b tp ts
    | .outOfResponses _ => .hangs

/-- Exit code and total extracted count of the CSV branch of
`charge_request.main`: credential check, empty-CSV check, the `--debug`
early exit (code 0 before any job is run), then the batch and the final
`sys.exit(total_printed == 0)`. `none` models a run that never exits. -/
def chargeRequestCSVMain (credsOk : Bool) (rows : List RowSpec) (debug : Bool) :
    Option Nat × Nat :=
  if ¬credsOk then (some 1, 0)
  else if rows.isEmpty then (some 1, 0)
  else if debug then (some 0, 0)
  else
    match runBatchSeq rows 0 0 with
    | .completes tp _ => (some (if tp = 0 then 1 else 0), tp)
    | .raises _ tp _ => (some 1, tp)
    | .hangs => (none, 0)

/-- Exit code and total extracted count of the single-order branch of
`charge_request.main`: credential check, `--day` validation, the `--debug`
early exit, then one run with retry and the `printed == 0` exit. -/
def chargeRequestSingleMain (credsOk dayOk debug : Bool) (env1 env2 : RunEnv)
    (from_time to_time : String) : Option Nat × Nat :=
  if ¬credsOk then (some 1, 0)
  else if ¬dayOk then (some 1, 0)
  else if debug then (some 0, 0)
  else
    match runOrderWithRetry env1 env2 from_time to_time with
    | .done p _ _ _ => (some (if p = 0 then 1 else 0), p)
    | .raised _ _ => (some 1, 0)
    | .outOfResponses _ => (none, 0)

/-- A rejected message is skipped and the scan continues with the rest. -/
theorem scanMessages_skip (u : Bool) (o : SqsOutcome) (st : ScanState) (m : Message)
    (rest : List Message) (h : msgDecode m = none) :
    scanMessages u o st (m :: rest) = scanMessages u o st rest := by
  simp only [scanMessages, h]

/-- After an accepted message the scan never looks at the remaining
messages of the page. -/
theorem scanMessages_tail_irrelevant (u : Bool) (o : SqsOutcome) (st : ScanState)
    (m : Message) (v : Json) (rest rest' : List Message) (h : msgDecode m = some v) :
    scanMessages u o st (m :: rest) = scanMessages u o st (m :: rest') := by
  simp only [scanMessages, h]

/-- Case analysis of one page's scan: either every message was skipped and
the state is untouched, or exactly one result was appended, the printed
counter rose by one and the sent counter by at most one. -/
theorem scanMessages_cases (u : Bool) (o : SqsOutcome) (st : ScanState)
    (msgs : List Message) :
    scanMessages u o st msgs = .ranOff st ∨
    (∃ st1 v,
      (scanMessages u o st msgs = .broke st1 ∨ scanMessages u o st msgs = .exits st1) ∧
      st1.printed = st.printed + 1 ∧
      (st1.sent = st.sent ∨ st1.sent = st.sent + 1) ∧
      st1.results = st.results ++ [v]) := by
  induction msgs with
  | nil => left; rfl
  | cons m rest ih =>
    cases hd : msgDecode m with
    | none => rw [scanMessages_skip u o st m rest hd]; exact ih
    | some v =>
      right
      simp only [scanMessages, hd]
      cases u with
      | false => exact ⟨_, v, Or.inl rfl, rfl, Or.inl rfl, rfl⟩
      | true =>
        cases o with
        | delivered => exact ⟨_, v, Or.inl rfl, rfl, Or.inr rfl, rfl⟩
        | failed => exact ⟨_, v, Or.inl rfl, rfl, Or.inl rfl, rfl⟩
        | exits => exact ⟨_, v, Or.inr rfl, rfl, Or.inl rfl, rfl⟩

/-- Counter invariant of the page loop: started with zeroed counters it
finishes with at most one printed result, no more sink deliveries than
results, and exactly `printed` collected payloads. -/
theorem pageLoop_counters (pages : Nat → PageResp) (u : Bool) (o : SqsOutcome) (mc : Nat) :
    ∀ fuel fi off st st', st.printed = 0 → st.sent = 0 → st.results = [] →
      pageLoop pages u o mc fuel fi off st = .finish st' →
      st'.printed ≤ 1 ∧ st'.sent ≤ st'.printed ∧ st'.results.length = st'.printed := by
  intro fuel
  induction fuel with
  | zero =>
    intro fi off st st' hp hs hr h
    simp only [pageLoop] at h
    cases h
    simp [hp, hs, hr]
  | succ fuel ih =>
    intro fi off st st' hp hs hr h
    simp only [pageLoop] at h
    set stE : ScanState := { st with events := st.events ++ [Event.pageReq off] } with hstE
    have hpE : stE.printed = 0 := hp
    have hsE : stE.sent = 0 := hs
    have hrE : stE.results = [] := hr
    by_cases hoff : off < mc
    · rw [if_pos hoff] at h
      cases hpg : pages fi with
      | transportError =>
        simp only [hpg] at h
        nomatch h
      | httpError c =>
        simp only [hpg] at h
        injection h with h2
        subst h2
        exact ⟨by simp [hp], by simp [hp, hs], by simp [hr, hp]⟩
      | ok status msgs =>
        simp only [hpg] at h
        by_cases h200 : status ≠ 200
        · rw [if_pos h200] at h
          injection h with h2
          subst h2
          exact ⟨by simp [hp], by simp [hp, hs], by simp [hr, hp]⟩
        · rw [if_neg h200] at h
          by_cases hemp : msgs.isEmpty = true
          · rw [if_pos hemp] at h
            injection h with h2
            subst h2
            exact ⟨by simp [hp], by simp [hp, hs], by simp [hr, hp]⟩
          · rw [if_neg hemp] at h
            rcases scanMessages_cases u o stE msgs with
              hsc | ⟨st1, v, hsc | hsc, hp1, hs1, hr1⟩
            · simp only [hsc] at h
              have hpr : ¬ st.printed > 0 := by simp [hp]
              rw [if_neg hpr] at h
              exact ih (fi + 1) (off + msgs.length) stE st' hpE hsE hrE h
            · simp only [hsc] at h
              injection h with h2
              subst h2
              refine ⟨?_, ?_, ?_⟩
              · rw [hp1, hpE]
              · rcases hs1 with h1 | h1 <;> rw [h1, hp1, hpE, hsE] <;> simp
              · rw [hr1, hrE, hp1, hpE]; rfl
            · simp only [hsc] at h
              nomatch h
    · rw [if_neg hoff] at h
      injection h with h2
      subst h2
      exact ⟨by simp [hp], by simp [hp, hs], by simp [hr, hp]⟩

/-- Status reports on which the poll loop keeps polling: HTTP 200, not the
done-gathering state, zero messages, not cancelled. -/
def pollContinues (r : PollResp) : Bool :=
  match r with
  | .ok status state mc =>
    (status == 200) && !(state == "DONE GATHERING RESULTS") && (mc == 0) &&
      !(state == "CANCELLED")
  | _ => false

/-- One non-exiting report is consumed and polling continues. -/
theorem pollLoop_step_continue (r : PollResp) (rest : List PollResp) (evs : List Event)
    (h : pollContinues r = true) :
    pollLoop (r :: rest) evs = pollLoop rest (evs ++ [Event.pollReq]) := by
  cases r with
  | transportError => simp [pollContinues] at h
  | httpError c => simp [pollContinues] at h
  | ok status state mc =>
    simp only [pollContinues, Bool.and_eq_true, beq_iff_eq, Bool.not_eq_true',
      beq_eq_false_iff_ne, ne_eq] at h
    obtain ⟨⟨⟨h200, hdone⟩, hmc⟩, hcanc⟩ := h
    subst h200
    subst hmc
    simp [pollLoop, hdone, hcanc]

/-- A prefix of non-exiting reports only adds poll events; the loop's result
is decided by the first report that satisfies an exit condition. -/
theorem pollLoop_front_continue (pre : List PollResp) (rs : List PollResp) (evs : List Event)
    (h : ∀ x ∈ pre, pollContinues x = true) :
    pollLoop (pre ++ rs) evs =
      pollLoop rs (evs ++ List.replicate pre.length Event.pollReq) := by
  induction pre generalizing evs with
  | nil => simp
  | cons x pre ih =>
    rw [List.cons_append, pollLoop_step_continue x (pre ++ rs) evs
      (h x (List.mem_cons_self x pre))]
    rw [ih (evs ++ [Event.pollReq]) (fun y hy => h y (List.mem_cons_of_mem _ hy))]
    simp [List.replicate_succ]

/-- Events of a poll loop that returned early are the initial events plus
poll requests only. -/
theorem pollLoop_failed_events (rs : List PollResp) :
    ∀ evs e, pollLoop rs evs = .failedReturn e →
      ∃ k, e = evs ++ List.replicate k Event.pollReq := by
  induction rs with
  | nil => intro evs e h; nomatch h
  | cons r rest ih =>
    intro evs e h
    cases r with
    | transportError => simp only [pollLoop] at h; nomatch h
    | httpError c =>
      simp only [pollLoop] at h
      cases h
      exact ⟨1, by simp⟩
    | ok status state mc =>
      simp only [pollLoop] at h
      by_cases h200 : status ≠ 200
      · rw [if_pos h200] at h
        cases h
        exact ⟨1, by simp⟩
      · rw [if_neg h200] at h
        by_cases hdone : state = "DONE GATHERING RESULTS"
        · rw [if_pos hdone] at h; nomatch h
        · rw [if_neg hdone] at h
          by_cases hmc : mc ≥ 1
          · rw [if_pos hmc] at h; nomatch h
          · rw [if_neg hmc] at h
            by_cases hcanc : state = "CANCELLED"
            · rw [if_pos hcanc] at h
              cases h
              exact ⟨1, by simp⟩
            · rw [if_neg hcanc] at h
              obtain ⟨k, hk⟩ := ih (evs ++ [Event.pollReq]) e h
              exact ⟨k + 1, by simp [hk, List.replicate_succ]⟩

/-- Entry the orchestrator records for one completed worker: the returned
tuple, or zeroed counters for a caught exception. -/
def recordOf : WorkerOutcome → TaskRes
  | .done r => r
  | .raised _ => ⟨0, 0, []⟩

/-- When no worker raised `SystemExit`, the completion loop finishes and
records every index of the completion order, independent of its order. -/
theorem processCompletions_eq (outcome : Nat → WorkerOutcome) :
    ∀ (order : List Nat) (m : Nat → Option TaskRes),
      (∀ i ∈ order, outcome i ≠ .raised true) →
      processCompletions outcome order m =
        some (fun j => if j ∈ order then some (recordOf (outcome j)) else m j) := by
  intro order
  induction order with
  | nil =>
    intro m h
    simp [processCompletions]
  | cons i rest ih =>
    intro m h
    cases ho : outcome i with
    | done r =>
      simp only [processCompletions, ho]
      rw [ih _ (fun j hj => h j (List.mem_cons_of_mem _ hj))]
      congr 1
      funext j
      by_cases hjr : j ∈ rest
      · simp [hjr, List.mem_cons]
      · by_cases hji : j = i
        · subst hji
          simp [hjr, updateMap, ho, recordOf, List.mem_cons]
        · simp [hjr, hji, updateMap, List.mem_cons]
    | raised b =>
      cases b with
      | true => exact absurd ho (h i (List.mem_cons_self i rest))
      | false =>
        simp only [processCompletions, ho]
        rw [ih _ (fun j hj => h j (List.mem_cons_of_mem _ hj))]
        congr 1
        funext j
        by_cases hjr : j ∈ rest
        · simp [hjr, List.mem_cons]
        · by_cases hji : j = i
          · subst hji
            simp [hjr, updateMap, ho, recordOf, List.mem_cons]
          · simp [hjr, hji, updateMap, List.mem_cons]

/-- Pointwise equal functions give equal flat maps. -/
theorem flatMap_congr_mem {α β : Type} (l : List α) (f g : α → List β)
    (h : ∀ a ∈ l, f a = g a) : l.flatMap f = l.flatMap g := by
  induction l with
  | nil => rfl
  | cons a l ih =>
    simp only [List.flatMap_cons]
    rw [h a (List.mem_cons_self a l), ih (fun x hx => h x (List.mem_cons_of_mem _ hx))]

/-- Events of any run outcome. -/
def eventsOf : RunOutcome → List Event
  | .done _ _ _ evs => evs
  | .raised _ evs => evs
  | .outOfResponses evs => evs

/-- Environment whose job is accepted and reports done-gathering with zero
messages: the run returns zero results after issuing its DELETE. -/
def envZero : RunEnv :=
  { submit := .ok 202 ("J1"), polls := [.ok 200 ("DONE GATHERING RESULTS") 0],
    pages := fun _ => .ok 200 [], sqsUrl := false, sqsOutcome := .failed,
    deleteFails := false }

/-- Environment whose first poll reports a cancelled job. -/
def envCancelled : RunEnv :=
  { submit := .ok 202 ("J1"), polls := [.ok 200 ("CANCELLED") 0],
    pages := fun _ => .ok 200 [], sqsUrl := false, sqsOutcome := .failed,
    deleteFails := false }

/-- Environment with one matching message, delivered to the sink. -/
def envHit : RunEnv :=
  { submit := .ok 202 ("J1"), polls := [.ok 200 ("GATHERING RESULTS") 1],
    pages := fun _ => .ok 200 [⟨some ("1")⟩, ⟨some ("2")⟩],
    sqsUrl := true, sqsOutcome := .delivered, deleteFails := false }

/-- Environment with one matching message whose SQS delivery raises the
`SystemExit` of `_send_to_sqs` (nonexistent queue). -/
def envSqsExit : RunEnv :=
  { submit := .ok 202 ("J1"), polls := [.ok 200 ("GATHERING RESULTS") 1],
    pages := fun _ => .ok 200 [⟨some ("1")⟩],
    sqsUrl := true, sqsOutcome := .exits, deleteFails := false }

example : run_one_order envZero =
    .done 0 0 [] [Event.submitReq, Event.pollReq, Event.deleteReq ("J1")] := by rfl
example : run_one_order envCancelled =
    .done 0 0 [] [Event.submitReq, Event.pollReq] := by rfl
example : run_one_order envHit =
    .done 1 1 [Json.num 1]
      [Event.submitReq, Event.pollReq, Event.pageReq 0, Event.sqsSend,
        Event.deleteReq ("J1")] := by rfl
example : run_one_order envSqsExit =
    .raised true [Event.submitReq, Event.pollReq, Event.pageReq 0, Event.sqsSend] := by rfl

/-- Emission over a permutation-recorded map equals the canonical
input-order emission. -/
theorem emitted_of_perm (n : Nat) (outcome : Nat → WorkerOutcome) (order : List Nat)
    (h : order.Perm (List.range n)) :
    emitted n (fun j => if j ∈ order then some (recordOf (outcome j)) else none) =
      (List.range n).flatMap (fun i => (recordOf (outcome i)).results) := by
  unfold emitted
  apply flatMap_congr_mem
  intro i hi
  have hio : i ∈ order := h.mem_iff.mpr hi
  simp [resultsAt, hio]

/-- C1: for a batch of N orders run by the concurrent runner, once every
task has completed (no SystemExit escaped), the JSON payloads emitted on
stdout are the per-order results arranged in original CSV input order, and
they are identical for any two completion orders of the worker tasks. -/
theorem ordered_emission_independent_of_completion
    (n : Nat) (outcome : Nat → WorkerOutcome) (order1 order2 : List Nat)
    (h1 : order1.Perm (List.range n)) (h2 : order2.Perm (List.range n))
    (hnf : ∀ i, outcome i ≠ .raised true) :
    ∃ m1 m2,
      processCompletions outcome order1 (fun _ => none) = some m1 ∧
      processCompletions outcome order2 (fun _ => none) = some m2 ∧
      emitted n m1 = emitted n m2 ∧
      emitted n m1 = (List.range n).flatMap (fun i => (recordOf (outcome i)).results) := by
  refine ⟨_, _, processCompletions_eq outcome order1 (fun _ => none) (fun i _ => hnf i),
    processCompletions_eq outcome order2 (fun _ => none) (fun i _ => hnf i), ?_, ?_⟩
  · rw [emitted_of_perm n outcome order1 h1, emitted_of_perm n outcome order2 h2]
  · exact emitted_of_perm n outcome order1 h1

/-- Outcome function of a concrete two-order batch. -/
def outcomeW : Nat → WorkerOutcome :=
  fun i => WorkerOutcome.done ⟨1, 0, [Json.num (Int.ofNat i)]⟩

/-- Witness for C1: a two-order batch under the two opposite completion
orders. -/
theorem ordered_emission_witness :
    ([1, 0] : List Nat).Perm (List.range 2) ∧
    ∃ m1 m2,
      processCompletions outcomeW [1, 0] (fun _ => none) = some m1 ∧
      processCompletions outcomeW [0, 1] (fun _ => none) = some m2 ∧
      emitted 2 m1 = emitted 2 m2 ∧
      emitted 2 m1 = (List.range 2).flatMap (fun i => (recordOf (outcomeW i)).results) :=
  ⟨by decide,
    ordered_emission_independent_of_completion 2 outcomeW [1, 0] [0, 1]
      (by decide) (by decide) (fun i => by simp [outcomeW])⟩

/-- C2: `_next_day_from_time` never inspects `to_time` (contrary to its own
docstring), so a zero-result run over the non-day-shaped window
2024-01-01T00:00:00 – 2024-03-05T12:00:00 still gets a next-day window and
the runner performs the retry: the combined trace carries two submissions. -/
theorem retry_fires_for_non_day_window :
    next_day_from_time ("2024-01-01T00:00:00") ("2024-03-05T12:00:00") =
      some ("2024-01-02T00:00:00", "2024-01-02T23:59:59") ∧
    (eventsOf (runOrderWithRetry envZero envZero ("2024-01-01T00:00:00")
      ("2024-03-05T12:00:00"))).count Event.submitReq = 2 := by
  exact ⟨rfl, rfl⟩

/-- C3 counterexample: the job was created (id J1) but the first poll
reports CANCELLED; `_run_one_order` returns with no DELETE in its trace. -/
theorem delete_skipped_after_cancel :
    run_one_order envCancelled = .done 0 0 [] [Event.submitReq, Event.pollReq] ∧
    Event.deleteReq ("J1") ∉ [Event.submitReq, Event.pollReq] := by
  exact ⟨rfl, by decide⟩

/-- C3 (amended): on runs that return normally, a DELETE for the created
job is in the trace exactly when the submission was accepted and the poll
loop exited through its break (done-gathering or a positive message count);
submission failures, polling errors and cancellation return without a
DELETE; and the run's outcome never depends on whether the DELETE itself
fails (the failure is swallowed). -/
theorem delete_on_break_paths_only (env : RunEnv) (p s : Nat) (res : List Json)
    (evs : List Event) (h : run_one_order env = .done p s res evs) :
    ((∃ jid, env.submit = .ok 202 jid ∧
        ∃ mc pevs, pollLoop env.polls [Event.submitReq] = .proceed mc pevs) ↔
      ∃ jid, Event.deleteReq jid ∈ evs) ∧
    ∀ b, run_one_order { env with deleteFails := b } = run_one_order env := by
  refine ⟨?_, fun b => rfl⟩
  simp only [run_one_order] at h
  cases hs : env.submit with
  | transportError =>
    simp only [hs] at h
    nomatch h
  | httpError c =>
    simp only [hs] at h
    injection h with h1 h2 h3 h4
    subst h4
    constructor
    · rintro ⟨jid, hj, _⟩
      nomatch hj
    · rintro ⟨jid, hmem⟩
      simp at hmem
  | ok status jid0 =>
    simp only [hs] at h
    by_cases h202 : status ≠ 202
    · rw [if_pos h202] at h
      injection h with h1 h2 h3 h4
      subst h4
      constructor
      · rintro ⟨jid, hj, _⟩
        injection hj with hst hjid
        exact absurd hst h202
      · rintro ⟨jid, hmem⟩
        simp at hmem
    · rw [if_neg h202] at h
      have hstatus : status = 202 := not_ne_iff.mp h202
      cases hpoll : pollLoop env.polls [Event.submitReq] with
      | outOfResponses pevs =>
        simp only [hpoll] at h
        nomatch h
      | transportRaise pevs =>
        simp only [hpoll] at h
        nomatch h
      | failedReturn pevs =>
        simp only [hpoll] at h
        injection h with h1 h2 h3 h4
        subst h4
        constructor
        · rintro ⟨jid, hj, mc, pevs2, hpl⟩
          nomatch hpl
        · rintro ⟨jid, hmem⟩
          obtain ⟨k, hk⟩ := pollLoop_failed_events env.polls [Event.submitReq] pevs hpoll
          subst hk
          simp [List.mem_append, List.mem_replicate] at hmem
      | proceed mc pevs =>
        simp only [hpoll] at h
        cases hpg : pageLoop env.pages env.sqsUrl env.sqsOutcome mc (mc + 1) 0 0
            ⟨0, 0, [], pevs⟩ with
        | transportRaise st2 =>
          simp only [hpg] at h
          nomatch h
        | exits st2 =>
          simp only [hpg] at h
          nomatch h
        | finish st2 =>
          simp only [hpg] at h
          injection h with h1 h2 h3 h4
          subst h4
          constructor
          · intro _
            exact ⟨jid0, by simp⟩
          · intro _
            exact ⟨jid0, by rw [hstatus], mc, pevs, rfl⟩

/-- Witness for C3 at a run that drains normally with zero messages: the
poll loop proceeds and the DELETE for job J1 is present. -/
theorem delete_on_break_paths_witness :
    run_one_order envZero =
      .done 0 0 [] [Event.submitReq, Event.pollReq, Event.deleteReq ("J1")] ∧
    ((∃ jid, envZero.submit = .ok 202 jid ∧
        ∃ mc pevs, pollLoop envZero.polls [Event.submitReq] = .proceed mc pevs) ↔
      ∃ jid, Event.deleteReq jid ∈
        [Event.submitReq, Event.pollReq, Event.deleteReq ("J1")]) :=
  ⟨rfl, (delete_on_break_paths_only envZero 0 0 []
    [Event.submitReq, Event.pollReq, Event.deleteReq ("J1")] rfl).1⟩

/-- C4 counterexample: a `--debug` execution of the single-order entry
point exits with code 0 although the total extracted count is 0. -/
theorem debug_mode_exits_zero :
    chargeRequestSingleMain true true true envZero envZero ("2024-01-01T00:00:00")
      ("2024-01-01T23:59:59") = (some 0, 0) := by
  rfl

/-- C4 (amended): outside `--debug` mode, and for runs in which no
exception escapes the batch (no SystemExit from SQS misconfiguration, no
uncaught transport error), each entry point exits 0 exactly when the total
extracted count is positive; invalid input (an empty CSV) still exits 1. -/
theorem exit_zero_iff_results :
    (∀ rows tp ts, rows ≠ [] → runBatchSeq rows 0 0 = .completes tp ts →
      ((chargeRequestCSVMain true rows false).1 = some 0 ↔
        0 < (chargeRequestCSVMain true rows false).2)) ∧
    (∀ env1 env2 ft tt p s res evs,
      runOrderWithRetry env1 env2 ft tt = .done p s res evs →
      ((chargeRequestSingleMain true true false env1 env2 ft tt).1 = some 0 ↔
        0 < (chargeRequestSingleMain true true false env1 env2 ft tt).2)) ∧
    (∀ n outcome order m,
      processCompletions outcome order (fun _ => none) = some m →
      ((runConcurrentMain true true true n outcome order).1 = 0 ↔
        0 < (runConcurrentMain true true true n outcome order).2)) ∧
    (∀ n outcome order, runConcurrentMain true true false n outcome order = (1, 0)) := by
  refine ⟨?_, ?_, ?_, fun n outcome order => rfl⟩
  · intro rows tp ts hne hbs
    have hemp : rows.isEmpty = false := by
      cases rows with
      | nil => exact absurd rfl hne
      | cons a l => rfl
    simp only [chargeRequestCSVMain, hemp, hbs]
    by_cases htp : tp = 0
    · simp [htp]
    · simp [htp, Nat.pos_of_ne_zero htp]
  · intro env1 env2 ft tt p s res evs hrun
    simp only [chargeRequestSingleMain, hrun]
    by_cases hp : p = 0
    · simp [hp]
    · simp [hp, Nat.pos_of_ne_zero hp]
  · intro n outcome order m hpc
    simp only [runConcurrentMain, hpc]
    by_cases ht : totalPrinted n m = 0
    · simp [ht]
    · simp [ht, Nat.pos_of_ne_zero ht]

/-- Row whose run finds one result. -/
def rowHit : RowSpec :=
  { env1 := envHit, env2 := envHit,
    from_time := "2024-01-01T00:00:00", to_time := "2024-01-01T23:59:59" }

/-- Witness for C4: a one-row CSV batch that finds one result. -/
theorem exit_zero_iff_results_witness :
    ([rowHit] ≠ ([] : List RowSpec)) ∧
    runBatchSeq [rowHit] 0 0 = .completes 1 1 ∧
    ((chargeRequestCSVMain true [rowHit] false).1 = some 0 ↔
      0 < (chargeRequestCSVMain true [rowHit] false).2) :=
  ⟨List.cons_ne_nil rowHit [], rfl,
    exit_zero_iff_results.1 [rowHit] 1 1 (List.cons_ne_nil rowHit []) rfl⟩

/-- C5: at most one result per job: a normally returning run has
printed ≤ 1, sent ≤ printed and exactly `printed` collected payloads;
after the first accepted message the remaining messages of its page are
never examined; and a page whose scan broke finishes the whole loop at
once, independent of the remaining fuel, so no later page is fetched. -/
theorem at_most_one_result :
    (∀ env p s res evs, run_one_order env = .done p s res evs →
      p ≤ 1 ∧ s ≤ p ∧ res.length = p) ∧
    (∀ u o st m v rest rest', msgDecode m = some v →
      scanMessages u o st (m :: rest) = scanMessages u o st (m :: rest')) ∧
    (∀ pages u o mc fuel fi off st status msgs st2,
      off < mc → pages fi = .ok status msgs → status = 200 → msgs.isEmpty = false →
      scanMessages u o { st with events := st.events ++ [Event.pageReq off] } msgs =
        .broke st2 →
      pageLoop pages u o mc (fuel + 1) fi off st = .finish st2) := by
  refine ⟨?_, ?_, ?_⟩
  · intro env p s res evs h
    simp only [run_one_order] at h
    cases hs : env.submit with
    | transportError =>
      simp only [hs] at h
      nomatch h
    | httpError c =>
      simp only [hs] at h
      injection h with h1 h2 h3 h4
      subst h1
      subst h2
      subst h3
      simp
    | ok status jid0 =>
      simp only [hs] at h
      by_cases h202 : status ≠ 202
      · rw [if_pos h202] at h
        injection h with h1 h2 h3 h4
        subst h1
        subst h2
        subst h3
        simp
      · rw [if_neg h202] at h
        cases hpoll : pollLoop env.polls [Event.submitReq] with
        | outOfResponses pevs =>
          simp only [hpoll] at h
          nomatch h
        | transportRaise pevs =>
          simp only [hpoll] at h
          nomatch h
        | failedReturn pevs =>
          simp only [hpoll] at h
          injection h with h1 h2 h3 h4
          subst h1
          subst h2
          subst h3
          simp
        | proceed mc pevs =>
          simp only [hpoll] at h
          cases hpg : pageLoop env.pages env.sqsUrl env.sqsOutcome mc (mc + 1) 0 0
              ⟨0, 0, [], pevs⟩ with
          | transportRaise st2 =>
            simp only [hpg] at h
            nomatch h
          | exits st2 =>
            simp only [hpg] at h
            nomatch h
          | finish st2 =>
            simp only [hpg] at h
            injection h with h1 h2 h3 h4
            subst h1
            subst h2
            subst h3
            exact pageLoop_counters env.pages env.sqsUrl env.sqsOutcome mc (mc + 1) 0 0
              ⟨0, 0, [], pevs⟩ st2 rfl rfl rfl hpg
  · intro u o st m v rest rest' h
    exact scanMessages_tail_irrelevant u o st m v rest rest' h
  · intro pages u o mc fuel fi off st status msgs st2 hoff hpg h200 hemp hbroke
    simp only [pageLoop]
    rw [if_pos hoff]
    simp only [hpg]
    subst h200
    rw [if_neg (by simp)]
    rw [hemp]
    simp only [Bool.false_eq_true, if_false]
    simp only [hbroke]

/-- Witness for C5 at a run with one delivered result: counts (1, 1). -/
theorem at_most_one_result_witness :
    run_one_order envHit =
      .done 1 1 [Json.num 1]
        [Event.submitReq, Event.pollReq, Event.pageReq 0, Event.sqsSend,
          Event.deleteReq ("J1")] ∧
    (1 ≤ 1 ∧ 1 ≤ 1 ∧ [Json.num 1].length = 1) :=
  ⟨rfl, at_most_one_result.1 envHit 1 1 [Json.num 1]
    [Event.submitReq, Event.pollReq, Event.pageReq 0, Event.sqsSend,
      Event.deleteReq ("J1")] rfl⟩

/-- C6: the poll loop exits on the first status report that satisfies an
exit condition; a 200 report with messageCount ≥ 1 exits to retrieval on
that same report whatever its state — in particular a cancelled report
carrying messages — while a cancelled report with zero messages fails. -/
theorem poll_exit_on_first_report :
    (∀ pre rs evs, (∀ x ∈ pre, pollContinues x = true) →
      pollLoop (pre ++ rs) evs =
        pollLoop rs (evs ++ List.replicate pre.length Event.pollReq)) ∧
    (∀ state mc rest evs, 1 ≤ mc →
      pollLoop (PollResp.ok 200 state mc :: rest) evs =
        .proceed mc (evs ++ [Event.pollReq])) ∧
    (∀ rest evs, pollLoop (PollResp.ok 200 ("CANCELLED") 3 :: rest) evs =
      .proceed 3 (evs ++ [Event.pollReq])) ∧
    (∀ rest evs, pollLoop (PollResp.ok 200 ("CANCELLED") 0 :: rest) evs =
      .failedReturn (evs ++ [Event.pollReq])) := by
  refine ⟨pollLoop_front_continue, ?_, ?_, ?_⟩
  · intro state mc rest evs hmc
    by_cases hdone : state = "DONE GATHERING RESULTS"
    · simp [pollLoop, hdone]
    · simp [pollLoop, hdone, hmc]
  · intro rest evs
    simp [pollLoop]
  · intro rest evs
    simp [pollLoop]

/-- Witness for C6: one non-exiting report, then a cancelled report with
seven messages exits to retrieval. -/
theorem poll_exit_on_first_report_witness :
    pollContinues (PollResp.ok 200 ("GATHERING RESULTS") 0) = true ∧
    (1 : Nat) ≤ 7 ∧
    pollLoop [PollResp.ok 200 ("GATHERING RESULTS") 0,
        PollResp.ok 200 ("CANCELLED") 7] [] =
      .proceed 7 ([Event.pollReq] ++ [Event.pollReq]) := by
  refine ⟨by decide, by decide, ?_⟩
  have h1 := poll_exit_on_first_report.1 [PollResp.ok 200 ("GATHERING RESULTS") 0]
    [PollResp.ok 200 ("CANCELLED") 7] [] (by decide)
  have h2 := poll_exit_on_first_report.2.1 ("CANCELLED") 7
    ([] : List PollResp) [Event.pollReq] (by decide)
  rw [show [PollResp.ok 200 ("GATHERING RESULTS") 0, PollResp.ok 200 ("CANCELLED") 7] =
    [PollResp.ok 200 ("GATHERING RESULTS") 0] ++ [PollResp.ok 200 ("CANCELLED") 7]
    from rfl, h1]
  simpa using h2

/-- C7: when the direct parse of a message's `json` field yields a string,
that string is parsed once more and the inner value is the result; the
spec's concrete double-encoded field decodes to the object with a = 1. -/
theorem double_encoded_unwrap :
    (∀ raw s v, jsonLoads raw = some (Json.str s) → jsonLoads s = some v →
      decodeMessage raw = some v) ∧
    decodeMessage ("\"\x7b\\\"a\\\":1\x7d\"") = some (Json.obj [("a", Json.num 1)]) := by
  refine ⟨?_, rfl⟩
  intro raw s v h1 h2
  simp only [decodeMessage, h1, h2]

/-- Witness for C7: a string containing the JSON text of the number 1. -/
theorem double_encoded_unwrap_witness :
    jsonLoads ("\"1\"") = some (Json.str ("1")) ∧
    jsonLoads ("1") = some (Json.num 1) ∧
    decodeMessage ("\"1\"") = some (Json.num 1) :=
  ⟨rfl, rfl, double_encoded_unwrap.1 ("\"1\"") ("1") (Json.num 1) rfl rfl⟩

/-- C8: when the direct parse fails, the decode equals one parse of the
unescaped raw text (doubled backslashes and escaped quotes removed); a
message rejected by both attempts is skipped and the scan continues; a
fully skipped page advances the loop to the next page rather than aborting
the job; and the spec's escaped-quotes example is recovered by the
fallback. -/
theorem fallback_unescape_and_skip :
    (∀ raw, jsonLoads raw = none →
      decodeMessage raw = jsonLoads (unescapeRaw raw)) ∧
    (∀ u o st m rest, msgDecode m = none →
      scanMessages u o st (m :: rest) = scanMessages u o st rest) ∧
    (∀ pages u o mc fuel fi off st status msgs st1,
      off < mc → pages fi = .ok status msgs → status = 200 → msgs.isEmpty = false →
      scanMessages u o { st with events := st.events ++ [Event.pageReq off] } msgs =
        .ranOff st1 → st1.printed = 0 →
      pageLoop pages u o mc (fuel + 1) fi off st =
        pageLoop pages u o mc fuel (fi + 1) (off + msgs.length) st1) ∧
    (jsonLoads ("\x7b\\\"a\\\":1\x7d") = none ∧
      decodeMessage ("\x7b\\\"a\\\":1\x7d") = some (Json.obj [("a", Json.num 1)])) := by
  refine ⟨?_, ?_, ?_, rfl, rfl⟩
  · intro raw h
    simp only [decodeMessage, h]
  · intro u o st m rest h
    exact scanMessages_skip u o st m rest h
  · intro pages u o mc fuel fi off st status msgs st1 hoff hpg h200 hemp hran hpr
    simp only [pageLoop]
    rw [if_pos hoff]
    simp only [hpg]
    subst h200
    rw [if_neg (by simp)]
    rw [hemp]
    simp only [Bool.false_eq_true, if_false]
    simp only [hran]
    rw [if_neg (by simp [hpr])]

/-- Witness for C8: a message whose field parses neither directly nor after
unescaping is skipped by the scan. -/
theorem fallback_unescape_and_skip_witness :
    msgDecode ⟨some ("\x7b")⟩ = none ∧
    scanMessages false SqsOutcome.failed ⟨0, 0, [], []⟩ [⟨some ("\x7b")⟩] =
      scanMessages false SqsOutcome.failed ⟨0, 0, [], []⟩ [] :=
  ⟨rfl, fallback_unescape_and_skip.2.1 false SqsOutcome.failed ⟨0, 0, [], []⟩
    ⟨some ("\x7b")⟩ [] rfl⟩

/-- C9 counterexample: the `SystemExit` that `_send_to_sqs` raises for a
nonexistent queue escapes the worker's run (its `except Exception` blocks
cannot catch it), and the orchestrator's completion loop then aborts the
batch instead of recording an error outcome for the task. -/
theorem systemexit_aborts_batch :
    futureResult (runOrderWithRetry envSqsExit envSqsExit ("2024-01-01T00:00:00")
      ("2024-01-01T23:59:59")) = some (WorkerOutcome.raised true) ∧
    processCompletions (fun _ => WorkerOutcome.raised true) [0] (fun _ => none) = none :=
  ⟨rfl, rfl⟩

/-- C9 (amended): every exception of class `Exception` raised inside one
worker's run (modelled `raised false`, e.g. an uncaught transport error) is
caught by the orchestrator and recorded as a zero-count error outcome for
that task alone; the batch completes and every sibling's recorded outcome
is exactly its own result.  Only a `SystemExit` is not caught. -/
theorem worker_exceptions_isolated (outcome : Nat → WorkerOutcome) (order : List Nat)
    (hnf : ∀ i ∈ order, outcome i ≠ .raised true) :
    ∃ m, processCompletions outcome order (fun _ => none) = some m ∧
      (∀ i ∈ order, m i = some (recordOf (outcome i))) ∧
      (∀ i ∈ order, outcome i = .raised false → m i = some ⟨0, 0, []⟩) := by
  refine ⟨_, processCompletions_eq outcome order (fun _ => none) hnf, ?_, ?_⟩
  · intro i hi
    simp [hi]
  · intro i hi ho
    simp [hi, ho, recordOf]

/-- Outcomes of a concrete batch whose first worker raises a caught
exception while the second returns a result. -/
def outcomeE : Nat → WorkerOutcome :=
  fun i => if i = 0 then WorkerOutcome.raised false
    else WorkerOutcome.done ⟨1, 0, [Json.num 5]⟩

/-- Witness for C9: a two-task batch in which task 0 raises a caught
exception and task 1 succeeds. -/
theorem worker_exceptions_isolated_witness :
    (∀ i ∈ [1, 0], outcomeE i ≠ .raised true) ∧
    ∃ m, processCompletions outcomeE [1, 0] (fun _ => none) = some m ∧
      (∀ i ∈ [1, 0], m i = some (recordOf (outcomeE i))) ∧
      (∀ i ∈ [1, 0], outcomeE i = .raised false → m i = some ⟨0, 0, []⟩) :=
  ⟨fun i _ => by
    by_cases h : i = 0 <;> simp [outcomeE, h],
    worker_exceptions_isolated outcomeE [1, 0]
      (fun i _ => by by_cases h : i = 0 <;> simp [outcomeE, h])⟩

/-- C10: a `from_time` that does not match `-<digits><unit>` never produces
a timezone override, even when `to_time` is "now": the resolved end instant
is then formatted from the current UTC clock while the caller's timezone
label is kept; and only a matching relative `from_time` forces "UTC". -/
theorem no_tz_override_without_relative :
    (∀ now ft tt, matchRel (pyLower (pyStrip ft)) = none →
      (resolve_relative_time now ft tt).2.2 = none ∧
      (resolve_relative_time now ft tt).1 = ft ∧
      (pyLower (pyStrip (if tt = "" then "now" else tt)) = "now" →
        (resolve_relative_time now ft tt).2.1 = fmtEpoch now)) ∧
    (∀ now ft tt tz, matchRel (pyLower (pyStrip ft)) = none →
      (singleModeWindow now ft tt tz).2.2 = tz) ∧
    (∀ now ft tt r, matchRel (pyLower (pyStrip ft)) = some r →
      (resolve_relative_time now ft tt).2.2 = some ("UTC")) := by
  refine ⟨?_, ?_, ?_⟩
  · intro now ft tt h
    refine ⟨?_, ?_, ?_⟩
    · simp [resolve_relative_time, h]
    · simp [resolve_relative_time, h]
    · intro hnow
      simp [resolve_relative_time, h, hnow]
  · intro now ft tt tz h
    have h2 : matchRel (pyLower (pyStrip ft)) = none := h
    simp [singleModeWindow, resolve_relative_time, h2]
  · intro now ft tt r h
    simp [resolve_relative_time, h]

/-- Witness for C10: an absolute `from_time` with `to_time` "now" under a
non-UTC caller timezone: no override, the end comes from the clock, and the
caller's zone is applied. -/
theorem no_tz_override_witness :
    matchRel (pyLower (pyStrip ("2024-01-01T00:00:00"))) = none ∧
    (resolve_relative_time 1704067199 ("2024-01-01T00:00:00") ("now")).2.2 = none ∧
    (resolve_relative_time 1704067199 ("2024-01-01T00:00:00") ("now")).2.1 =
      fmtEpoch 1704067199 ∧
    (singleModeWindow 1704067199 ("2024-01-01T00:00:00") ("now")
      ("America/New_York")).2.2 = "America/New_York" :=
  ⟨rfl,
    (no_tz_override_without_relative.1 1704067199 ("2024-01-01T00:00:00") ("now") rfl).1,
    (no_tz_override_without_relative.1 1704067199 ("2024-01-01T00:00:00") ("now") rfl).2.2
      (by rfl),
    no_tz_override_without_relative.2.1 1704067199 ("2024-01-01T00:00:00") ("now")
      ("America/New_York") rfl⟩
